import Mathlib

/-!
Verification of the collaborative-filtering recommender in
src/models/cf.py against its specification.

The development shallowly embeds the data model and operations of the
source file: the sklearn LabelEncoder instances, the scipy coordinate
matrix accumulation, RecommendationSystem.fit and recommend, the
evaluate_model pipeline and the filter_seen_items collaborator.  The
numeric output of the external implicit ALS solver (the factor matrices)
is kept abstract as a score function; everything the source computes
around it is embedded concretely.
-/

/-- Dynamically typed Python scalar values as they occur in the modelled
data frames: raw identifiers are strings, recommendation indices are
integers.  Equality across constructors is False, matching Python, where
an integer compared with a string by eq yields False. -/
inductive PyVal where
  | str (s : String)
  | int (n : Int)
deriving DecidableEq, Repr

/-- Exception classes raised by the modelled library calls: ValueError
(sklearn LabelEncoder on labels outside the fitted vocabulary) and
IndexError (indexing a matrix row beyond its row count). -/
inductive PyErr where
  | valueError
  | indexError
deriving DecidableEq, Repr

/-- Comparison used by numpy.unique when LabelEncoder sorts its classes.
Within one constructor it is the usual order: strings compare
lexicographically by code point, here through their character lists;
integers numerically.  The modelled data frames never mix the two types in
one column (Python would raise TypeError there), so the cross-constructor
case is arbitrary. -/
def PyVal.le : PyVal → PyVal → Prop
  | .str a, .str b => a.data ≤ b.data
  | .int a, .int b => a ≤ b
  | .int _, .str _ => True
  | .str _, .int _ => False

instance : DecidableRel PyVal.le := fun a b =>
  match a, b with
  | .str a, .str b => inferInstanceAs (Decidable (a.data ≤ b.data))
  | .int a, .int b => inferInstanceAs (Decidable (a ≤ b))
  | .int _, .str _ => inferInstanceAs (Decidable True)
  | .str _, .int _ => inferInstanceAs (Decidable False)

instance : IsTotal PyVal PyVal.le :=
  ⟨by intro a b; cases a <;> cases b <;> simp [PyVal.le] <;> exact le_total _ _⟩

instance : IsTrans PyVal PyVal.le :=
  ⟨by intro a b c hab hbc
      cases a <;> cases b <;> cases c <;> simp_all [PyVal.le] <;> exact le_trans hab hbc⟩

/-- LabelEncoder.fit (and the fit half of fit_transform): the fitted
classes_ array is numpy.unique of the input values, i.e. the distinct
values in ascending sorted order. -/
def leFit (values : List PyVal) : List PyVal :=
  List.insertionSort PyVal.le values.dedup

/-- Position of a fitted value inside classes_, the integer code that
LabelEncoder.transform assigns to it (numpy.searchsorted on the sorted
classes, equivalently the index in the class list). -/
def leCode (classes : List PyVal) (v : PyVal) : Nat :=
  classes.indexOf v

/-- LabelEncoder.transform on a single value: the code of a fitted value,
ValueError for a label not seen during fit. -/
def leTransform (classes : List PyVal) (v : PyVal) : Except PyErr Nat :=
  if v ∈ classes then Except.ok (leCode classes v) else Except.error PyErr.valueError

/-- LabelEncoder.inverse_transform on a single code: the class stored at
that index, an error for a code outside the fitted range (sklearn raises
ValueError there). -/
def leInverse (classes : List PyVal) (i : Nat) : Except PyErr PyVal :=
  match classes[i]? with
  | some v => Except.ok v
  | none => Except.error PyErr.valueError

/-- LabelEncoder.transform on a whole column: Python computes the array
in one call and the first unseen label aborts with ValueError. -/
def transformList (classes : List PyVal) : List PyVal → Except PyErr (List Nat)
  | [] => Except.ok []
  | v :: vs =>
      match leTransform classes v with
      | Except.ok i =>
          match transformList classes vs with
          | Except.ok is => Except.ok (i :: is)
          | Except.error e => Except.error e
      | Except.error e => Except.error e

/-- The decode comprehension at the end of recommend: each index is
passed through inverse_transform, an exception aborts the whole list. -/
def decodeList (classes : List PyVal) : List Nat → Except PyErr (List PyVal)
  | [] => Except.ok []
  | i :: is =>
      match leInverse classes i with
      | Except.ok v =>
          match decodeList classes is with
          | Except.ok vs => Except.ok (v :: vs)
          | Except.error e => Except.error e
      | Except.error e => Except.error e

/-- Entries of a scipy COO/CSR matrix built from (row, column, weight)
triples: csr_matrix((data, (rows, cols))) sums the weights of duplicate
coordinates.  The accumulation is a left fold in data order. -/
def buildMatrix (triples : List (Nat × Nat × Int)) : Nat → Nat → Int :=
  triples.foldl
    (fun acc t => fun i u => if i = t.1 ∧ u = t.2.1 then acc i u + t.2.2 else acc i u)
    (fun _ _ => 0)

/-- Row extent scipy infers for a coordinate list: one past the largest
index, 0 for an empty list. -/
def cooRows (idx : List Nat) : Nat :=
  idx.foldr (fun i acc => max (i + 1) acc) 0

/-- A scipy sparse matrix: inferred shape plus the entry function. -/
structure SpMat where
  rows : Nat
  cols : Nat
  entry : Nat → Nat → Int

/-- Row sum of a sparse matrix, numpy sum over axis 1. -/
def rowSum (M : SpMat) (i : Nat) : Int :=
  ((List.range M.cols).map (fun u => M.entry i u)).sum

/-- One row of the interaction data frame handed to fit and to the
evaluation helpers: columns user_id, parent_asin (the item identifier)
and rating.  Ratings in the modelled datasets are whole star values,
carried exactly as integers. -/
structure Row where
  user_id : PyVal
  parent_asin : PyVal
  rating : Int
deriving DecidableEq, Repr

/-- Descending-score order on (index, score) pairs.  Python sorts the
ascending-index pair list with a stable sort keyed on the negated score,
which orders pairs by strictly greater score first and, on equal scores,
by ascending index. -/
def rLex {β : Type} [LinearOrder β] (p q : Nat × β) : Prop :=
  q.2 < p.2 ∨ (p.2 = q.2 ∧ p.1 ≤ q.1)

instance {β : Type} [LinearOrder β] : DecidableRel (@rLex β _) := fun p q => by
  unfold rLex; infer_instance

instance {β : Type} [LinearOrder β] : IsTotal (Nat × β) (@rLex β _) := ⟨by
  intro p q
  rcases lt_trichotomy p.2 q.2 with h | h | h
  · exact Or.inr (Or.inl h)
  · rcases le_total p.1 q.1 with h2 | h2
    · exact Or.inl (Or.inr ⟨h, h2⟩)
    · exact Or.inr (Or.inr ⟨h.symm, h2⟩)
  · exact Or.inl (Or.inl h)⟩

instance {β : Type} [LinearOrder β] : IsTrans (Nat × β) (@rLex β _) := ⟨by
  intro p q r hpq hqr
  rcases hpq with h1 | ⟨h1, h1b⟩
  · rcases hqr with h2 | ⟨h2, h2b⟩
    · exact Or.inl (lt_trans h2 h1)
    · exact Or.inl (lt_of_eq_of_lt h2.symm h1)
  · rcases hqr with h2 | ⟨h2, h2b⟩
    · exact Or.inl (lt_of_lt_of_eq h2 h1.symm)
    · exact Or.inr ⟨h1.trans h2, le_trans h1b h2b⟩⟩

/-- State of a RecommendationSystem after fit: the two fitted encoders,
the training item-user matrix, and the score function induced by the ALS
factor matrices (score i u is the dot product of item factor row i with
user factor row u).  The factor values come from the external implicit
solver and are numeric data the source never inspects beyond these dot
products, so they stay abstract; item_factors has itemUser.rows rows and
user_factors has itemUser.cols rows, the shapes of the fitted matrix. -/
structure Model where
  userClasses : List PyVal
  itemClasses : List PyVal
  itemUser : SpMat
  score : Nat → Nat → Rat

/-- RecommendationSystem.fit: fit_transform both encoders over the
user_id and parent_asin columns, then build the sparse matrix
csr_matrix((ratings, (items, users))) — rows are encoded items, columns
encoded users, with the scipy-inferred shape — and fit the ALS model on
it. -/
def Model.fit (df : List Row) (score : Nat → Nat → Rat) : Model :=
  let uc := leFit (df.map (fun r => r.user_id))
  let ic := leFit (df.map (fun r => r.parent_asin))
  let users := df.map (fun r => leCode uc r.user_id)
  let items := df.map (fun r => leCode ic r.parent_asin)
  let ratings := df.map (fun r => r.rating)
  { userClasses := uc
    itemClasses := ic
    itemUser :=
      { rows := cooRows items
        cols := cooRows users
        entry := buildMatrix (items.zip (users.zip ratings)) }
    score := score }

/-- AlternatingLeastSquares.recommend of the implicit 0.4 line, the API
this source consumes (its callers iterate over the returned list of
(item, score) pairs and pass the matrices positionally as fit and
recommend expect there).  The method scores every item by the factor dot
product, and when filter_already_liked_items is set it excludes the
nonzero column indices of row userid of whatever matrix the caller
passed as user_items; reading that row raises IndexError when the matrix
has at most userid rows.  The pairs are ordered by descending score with
ties in ascending index order (the stable Python sort over the
ascending-index enumeration; the argpartition fast path returns the same
leading items), the excluded ones are dropped and the first N remain. -/
def alsRecommend (m : Model) (userIdx : Nat) (userItems : SpMat) (N : Nat)
    (filterLiked : Bool) : Except PyErr (List Nat) :=
  if filterLiked = true ∧ userItems.rows ≤ userIdx then Except.error PyErr.indexError
  else
    let liked : List Nat :=
      if filterLiked then
        (List.range userItems.cols).filter (fun j => decide (userItems.entry userIdx j ≠ 0))
      else []
    let best := List.insertionSort rLex
      ((List.range m.itemUser.rows).map (fun i => (i, m.score i userIdx)))
    Except.ok (((best.filter (fun p => decide (p.1 ∉ liked))).take N).map (fun p => p.1))

/-- The cold-start branch of recommend: enumerate the row sums of the
training item-user matrix (total accumulated weight per item), sort the
(item, weight) pairs by descending weight with the stable Python sort
(ascending item index on ties) and keep the first n item indices. -/
def popularityTop (m : Model) (n : Nat) : List Nat :=
  ((List.insertionSort rLex
      ((List.range m.itemUser.rows).map (fun i => (i, rowSum m.itemUser i)))).take n).map
    (fun p => p.1)

/-- RecommendationSystem.recommend: transform the user identifier and ask
the ALS model for recommendations; a ValueError raised inside the guarded
block selects the popularity fallback; the item indices that survive are
decoded through the item encoder outside the guarded block, so decode
errors and non-ValueError exceptions propagate to the caller. -/
def Model.recommend (m : Model) (userId : PyVal) (n : Nat) : Except PyErr (List PyVal) :=
  match leTransform m.userClasses userId with
  | Except.ok uidx =>
      match alsRecommend m uidx m.itemUser n true with
      | Except.ok recs => decodeList m.itemClasses recs
      | Except.error PyErr.valueError => decodeList m.itemClasses (popularityTop m n)
      | Except.error PyErr.indexError => Except.error PyErr.indexError
  | Except.error PyErr.valueError => decodeList m.itemClasses (popularityTop m n)
  | Except.error PyErr.indexError => Except.error PyErr.indexError

def c4rows : List (Nat × Nat × Int) := [(0, 1, 5), (0, 1, 3), (2, 0, 4)]

def c4rows2 : List (Nat × Nat × Int) := [(2, 0, 4), (0, 1, 3), (0, 1, 5)]

def c6values : List PyVal := [PyVal.str "b", PyVal.str "a", PyVal.str "b"]

def c1df : List Row := [⟨PyVal.str "u", PyVal.str "a", 1⟩, ⟨PyVal.str "u", PyVal.str "b", 2⟩]

def c7df : List Row := [⟨PyVal.str "u", PyVal.str "a", 1⟩]

/-- Training table for the liked-items counterexample: user u rated item
a; user v rated items a and b.  Encoded: u is user 0, v user 1, a item 0,
b item 1. -/
def c3df : List Row :=
  [⟨PyVal.str "u", PyVal.str "a", 1⟩,
   ⟨PyVal.str "v", PyVal.str "a", 1⟩,
   ⟨PyVal.str "v", PyVal.str "b", 1⟩]

/-- pandas Series.unique over the user_id column: the distinct values in
order of first appearance. -/
def uniqueFirstSeen : List PyVal → List PyVal
  | [] => []
  | a :: as => a :: uniqueFirstSeen (as.filter (fun b => decide (b ≠ a)))
termination_by l => l.length
decreasing_by
  simp only [List.length_cons]
  exact Nat.lt_succ_of_le (List.length_filter_le _ _)

/-- Reading one row of a csr matrix, model.item_user_data[user_idx]: a
1-by-cols matrix holding that row, IndexError when the index is out of
range. -/
def getRowSp (M : SpMat) (i : Nat) : Except PyErr SpMat :=
  if i < M.rows then
    Except.ok { rows := 1, cols := M.cols, entry := fun _ j => M.entry i j }
  else Except.error PyErr.indexError

/-- The held-out matrix evaluate_model builds:
csr_matrix((ratings, (user_encoder.transform(users),
item_encoder.transform(items)))) — the data are the ratings, the row
coordinates are the ENCODED USERS and the column coordinates the ENCODED
ITEMS, with the scipy-inferred shape.  Python evaluates the rating
column, then the user transform, then the item transform, so an unseen
user aborts before the items are looked at. -/
def testMatrix (m : Model) (testDf : List Row) : Except PyErr SpMat :=
  match transformList m.userClasses (testDf.map (fun r => r.user_id)) with
  | Except.error e => Except.error e
  | Except.ok uidx =>
      match transformList m.itemClasses (testDf.map (fun r => r.parent_asin)) with
      | Except.error e => Except.error e
      | Except.ok iidx =>
          Except.ok
            { rows := cooRows uidx
              cols := cooRows iidx
              entry := buildMatrix (uidx.zip (iidx.zip (testDf.map (fun r => r.rating)))) }

/-- Modelled from the spec, for comparison only: the orientation the spec
asserts for the held-out matrix — the same item-by-user layout as
training, rows indexed by encoded item and columns by encoded user. -/
def specHeldoutMatrix (m : Model) (testDf : List Row) : SpMat :=
  { rows := cooRows (testDf.map (fun r => leCode m.itemClasses r.parent_asin))
    cols := cooRows (testDf.map (fun r => leCode m.userClasses r.user_id))
    entry := buildMatrix (testDf.map (fun r =>
      (leCode m.itemClasses r.parent_asin, leCode m.userClasses r.user_id, r.rating))) }

/-- The conversion applied to each recommended item index before the
metric calls in evaluate_model: if the integer is itself a member of the
raw item vocabulary classes_ it is replaced by its transform code, and
anything else becomes -1. -/
def recToId (m : Model) (item : Nat) : Int :=
  if PyVal.int (Int.ofNat item) ∈ m.itemClasses then
    Int.ofNat (leCode m.itemClasses (PyVal.int (Int.ofNat item)))
  else -1

/-- One recommendation list converted as in all_recommendations_ids. -/
def recsToIds (m : Model) (userRecs : List Nat) : List Int :=
  userRecs.map (recToId m)

/-- Test for the string constructor, used to state that a vocabulary
consists of non-integer string identifiers. -/
def PyVal.isStr : PyVal → Bool
  | .str _ => true
  | .int _ => false

/-- The per-user loop of evaluate_model: transform the user id, slice row
user_idx out of the TRAINING item-user matrix, and call the ALS
recommendation with the already-liked filter disabled, collecting the
recommended item indices per user. -/
def recLoop (m : Model) (k : Nat) : List PyVal → Except PyErr (List (List Nat))
  | [] => Except.ok []
  | uid :: rest =>
      match leTransform m.userClasses uid with
      | Except.error e => Except.error e
      | Except.ok uidx =>
          match getRowSp m.itemUser uidx with
          | Except.error e => Except.error e
          | Except.ok userItems =>
              match alsRecommend m uidx userItems k false with
              | Except.error e => Except.error e
              | Except.ok recs =>
                  match recLoop m k rest with
                  | Except.error e => Except.error e
                  | Except.ok others => Except.ok (recs :: others)

/-- evaluate_model up to the metric calls: build the held-out matrix,
transform the distinct user ids, run the recommendation loop and convert
every recommended index to a raw-vocabulary id.  The three ranking
metrics are external library calls consuming the converted lists, so the
pipeline result is those lists; an exception anywhere aborts the whole
evaluation and no report is produced. -/
def evaluateModel (m : Model) (testDf : List Row) (k : Nat) :
    Except PyErr (List (List Int)) :=
  match testMatrix m testDf with
  | Except.error e => Except.error e
  | Except.ok _ =>
      let userIds := uniqueFirstSeen (testDf.map (fun r => r.user_id))
      match transformList m.userClasses userIds with
      | Except.error e => Except.error e
      | Except.ok _ =>
          match recLoop m k userIds with
          | Except.error e => Except.error e
          | Except.ok allRecs => Except.ok (allRecs.map (recsToIds m))

/-- filter_seen_items: keep the held-out rows whose parent_asin occurs in
the training table; the user column is never consulted. -/
def filter_seen_items (trainDf testDf : List Row) : List Row :=
  testDf.filter (fun r => decide (r.parent_asin ∈ trainDf.map (fun t => t.parent_asin)))

/-- The configuration options RecommendationSystem accepts, each with a
default (factors 100, regularization 0.01, alpha 1.0, iterations 50). -/
def initParams : List String := ["factors", "regularization", "alpha", "iterations"]

/-- The keyword arguments the constructor forwards to
AlternatingLeastSquares — the complete configuration of the solver. -/
def alsCallArgs : List String := ["factors", "regularization", "alpha", "iterations"]

def c2train : List Row := [⟨PyVal.str "u", PyVal.str "a", 1⟩, ⟨PyVal.str "v", PyVal.str "a", 1⟩]

def c2test : List Row := [⟨PyVal.str "u", PyVal.str "a", 1⟩, ⟨PyVal.str "v", PyVal.str "a", 1⟩]

def c10train : List Row := [⟨PyVal.str "u", PyVal.str "a", 1⟩]

def c10test : List Row := [⟨PyVal.str "w", PyVal.str "a", 2⟩]

/- ### Helper lemmas about the encoder and the matrix accumulation -/

theorem leFit_nodup (values : List PyVal) : (leFit values).Nodup :=
  ((List.perm_insertionSort PyVal.le values.dedup).nodup_iff).mpr values.nodup_dedup

theorem leFit_sorted (values : List PyVal) : List.Sorted PyVal.le (leFit values) :=
  List.sorted_insertionSort PyVal.le values.dedup

theorem mem_leFit {values : List PyVal} {v : PyVal} : v ∈ leFit values ↔ v ∈ values := by
  rw [leFit, (List.perm_insertionSort PyVal.le values.dedup).mem_iff, List.mem_dedup]

theorem buildMatrix_aux (ts : List (Nat × Nat × Int)) (acc : Nat → Nat → Int) (i u : Nat) :
    ts.foldl
      (fun acc t => fun i u => if i = t.1 ∧ u = t.2.1 then acc i u + t.2.2 else acc i u)
      acc i u
    = acc i u + ((ts.filter (fun t => decide (t.1 = i ∧ t.2.1 = u))).map (fun t => t.2.2)).sum := by
  induction ts generalizing acc with
  | nil => simp
  | cons t ts ih =>
      rw [List.foldl_cons, ih, List.filter_cons]
      show (if i = t.1 ∧ u = t.2.1 then acc i u + t.2.2 else acc i u) + _ = _
      by_cases h : t.1 = i ∧ t.2.1 = u
      · rw [if_pos ⟨h.1.symm, h.2.symm⟩, if_pos (decide_eq_true h), List.map_cons,
          List.sum_cons]
        ring
      · rw [if_neg (fun hc => h ⟨hc.1.symm, hc.2.symm⟩), if_neg (by simpa using h)]

theorem buildMatrix_eq_sum (ts : List (Nat × Nat × Int)) (i u : Nat) :
    buildMatrix ts i u
    = ((ts.filter (fun t => decide (t.1 = i ∧ t.2.1 = u))).map (fun t => t.2.2)).sum := by
  simpa using buildMatrix_aux ts (fun _ _ => 0) i u

theorem buildMatrix_perm {ts ts2 : List (Nat × Nat × Int)} (h : ts.Perm ts2) (i u : Nat) :
    buildMatrix ts i u = buildMatrix ts2 i u := by
  rw [buildMatrix_eq_sum, buildMatrix_eq_sum]
  exact ((h.filter _).map _).sum_eq

/- ### Claim C4: accumulation characterisation and permutation invariance -/

/-- C4: for every multiset of (item index, user index, rating) triples, the
interaction matrix built from them has matrix[i,u] equal to the sum of the
ratings of all triples with pair (i,u), and the matrix is unchanged under
any permutation of the input rows. -/
theorem interaction_matrix_accumulation (ts ts2 : List (Nat × Nat × Int))
    (h : ts.Perm ts2) (i u : Nat) :
    buildMatrix ts i u
      = ((ts.filter (fun t => decide (t.1 = i ∧ t.2.1 = u))).map (fun t => t.2.2)).sum
    ∧ buildMatrix ts i u = buildMatrix ts2 i u :=
  ⟨buildMatrix_eq_sum ts i u, buildMatrix_perm h i u⟩

theorem interaction_matrix_accumulation_witness :
    c4rows.Perm c4rows2
    ∧ (buildMatrix c4rows 0 1
        = ((c4rows.filter (fun t => decide (t.1 = 0 ∧ t.2.1 = 1))).map (fun t => t.2.2)).sum
      ∧ buildMatrix c4rows 0 1 = buildMatrix c4rows2 0 1) :=
  ⟨by decide, interaction_matrix_accumulation c4rows c4rows2 (by decide) 0 1⟩

/- ### Claim C5: order in which fit assigns codes -/

/-- C5 counterexample: fitting on the value sequence ["b", "a"] refutes
first-appearance order, under which the first value "b" would receive
code 0; LabelEncoder sorts the classes, so "b" receives code 1. -/
theorem encoder_first_seen_counterexample :
    ¬ ((leTransform (leFit [PyVal.str "b", PyVal.str "a"]) (PyVal.str "b")).toOption
        = some 0) := by decide

/-- C5 (amended): fit assigns each distinct value a dense index in
ascending value order, not first-appearance order: the fitted class list
holds exactly the distinct input values, strictly sorted, and transform
maps each fitted value to its position in that list. -/
theorem encoder_fit_sorted_order (values : List PyVal) :
    List.Pairwise (fun a b => PyVal.le a b ∧ a ≠ b) (leFit values)
    ∧ (∀ v, v ∈ leFit values ↔ v ∈ values)
    ∧ (∀ v, v ∈ values →
        leTransform (leFit values) v = Except.ok ((leFit values).indexOf v)) := by
  refine ⟨?_, fun v => mem_leFit, fun v hv => ?_⟩
  · exact (leFit_sorted values).imp₂ (fun _ _ h hne => ⟨h, hne⟩) (leFit_nodup values)
  · rw [leTransform, if_pos (mem_leFit.mpr hv)]; rfl

/- ### Claim C6: encoder round trip -/

/-- C6: for every identifier value seen during fit, inverse_transform of
transform returns the original value. -/
theorem encoder_round_trip (values : List PyVal) (v : PyVal) (hv : v ∈ values) :
    ∃ i, leTransform (leFit values) v = Except.ok i
      ∧ leInverse (leFit values) i = Except.ok v := by
  have hmem : v ∈ leFit values := mem_leFit.mpr hv
  have hlt : (leFit values).indexOf v < (leFit values).length :=
    List.indexOf_lt_length.mpr hmem
  refine ⟨(leFit values).indexOf v, ?_, ?_⟩
  · rw [leTransform, if_pos hmem]; rfl
  · rw [leInverse, List.getElem?_eq_getElem hlt, List.getElem_indexOf hlt]

theorem encoder_round_trip_witness :
    PyVal.str "b" ∈ c6values
    ∧ ∃ i, leTransform (leFit c6values) (PyVal.str "b") = Except.ok i
        ∧ leInverse (leFit c6values) i = Except.ok (PyVal.str "b") :=
  ⟨by decide, encoder_round_trip c6values (PyVal.str "b") (by decide)⟩

/- ### Shape and decoding lemmas for the fitted model -/

theorem cooRows_cons (a : Nat) (l : List Nat) : cooRows (a :: l) = max (a + 1) (cooRows l) :=
  rfl

theorem cooRows_le (l : List Nat) (K : Nat) (h : ∀ i ∈ l, i < K) : cooRows l ≤ K := by
  induction l with
  | nil => exact Nat.zero_le K
  | cons a l ih =>
      rw [cooRows_cons]
      exact max_le (h a (List.mem_cons_self a l))
        (ih (fun i hi => h i (List.mem_cons_of_mem a hi)))

theorem lt_cooRows (l : List Nat) (i : Nat) (h : i ∈ l) : i < cooRows l := by
  induction l with
  | nil => cases h
  | cons a l ih =>
      rw [cooRows_cons]
      rcases List.mem_cons.mp h with rfl | h2
      · exact lt_of_lt_of_le (Nat.lt_succ_self i) (le_max_left _ _)
      · exact lt_of_lt_of_le (ih h2) (le_max_right _ _)

theorem leCode_lt_length (values : List PyVal) (v : PyVal) (h : v ∈ values) :
    leCode (leFit values) v < (leFit values).length :=
  List.indexOf_lt_length.mpr (mem_leFit.mpr h)

theorem cooRows_codes (values : List PyVal) :
    cooRows (values.map (leCode (leFit values))) = (leFit values).length := by
  apply le_antisymm
  · refine cooRows_le _ _ (fun i hi => ?_)
    obtain ⟨v, hv, rfl⟩ := List.mem_map.mp hi
    exact leCode_lt_length values v hv
  · rcases hK : (leFit values).length with _ | K
    · exact Nat.zero_le _
    · have hKlt : K < (leFit values).length := by omega
      have hmem : (leFit values)[K] ∈ leFit values := List.getElem_mem hKlt
      have hval : (leFit values)[K] ∈ values := mem_leFit.mp hmem
      have hcode : leCode (leFit values) ((leFit values)[K]) = K :=
        List.indexOf_getElem (leFit_nodup values) K hKlt
      have hin : leCode (leFit values) ((leFit values)[K])
          ∈ values.map (leCode (leFit values)) :=
        List.mem_map_of_mem _ hval
      have hlt := lt_cooRows _ _ hin
      omega

theorem fit_rows (df : List Row) (score : Nat → Nat → Rat) :
    (Model.fit df score).itemUser.rows = (Model.fit df score).itemClasses.length := by
  have h := cooRows_codes (df.map (fun r => r.parent_asin))
  rw [List.map_map] at h
  exact h

theorem leTransform_not_mem (classes : List PyVal) (v : PyVal) (h : v ∉ classes) :
    leTransform classes v = Except.error PyErr.valueError := by
  rw [leTransform, if_neg h]

theorem leTransform_mem (classes : List PyVal) (v : PyVal) (h : v ∈ classes) :
    leTransform classes v = Except.ok (leCode classes v) := by
  rw [leTransform, if_pos h]

theorem decodeList_ok (classes : List PyVal) (l : List Nat)
    (h : ∀ i ∈ l, i < classes.length) :
    ∃ vs, decodeList classes l = Except.ok vs ∧ vs.length = l.length := by
  induction l with
  | nil => exact ⟨[], rfl, rfl⟩
  | cons i is ih =>
      have hi : i < classes.length := h i (List.mem_cons_self i is)
      obtain ⟨vs, hvs, hlen⟩ := ih (fun j hj => h j (List.mem_cons_of_mem i hj))
      refine ⟨classes[i] :: vs, ?_, by simp [hlen]⟩
      simp only [decodeList, leInverse, List.getElem?_eq_getElem hi, hvs]

theorem alsRecommend_ne_valueError (m : Model) (userIdx : Nat) (userItems : SpMat)
    (N : Nat) (fl : Bool) :
    alsRecommend m userIdx userItems N fl ≠ Except.error PyErr.valueError := by
  rw [alsRecommend]
  split
  · intro hc; injection hc with h2; cases h2
  · intro hc; cases hc

theorem popularityTop_spec (m : Model) (n : Nat) :
    (∀ i ∈ popularityTop m n, i < m.itemUser.rows)
    ∧ (popularityTop m n).length = min n m.itemUser.rows
    ∧ List.Pairwise (fun i j => rowSum m.itemUser j < rowSum m.itemUser i
        ∨ (rowSum m.itemUser i = rowSum m.itemUser j ∧ i < j)) (popularityTop m n) := by
  have hperm := List.perm_insertionSort rLex
    ((List.range m.itemUser.rows).map (fun i => (i, rowSum m.itemUser i)))
  have hmemT : ∀ p ∈ (List.insertionSort rLex
      ((List.range m.itemUser.rows).map (fun i => (i, rowSum m.itemUser i)))).take n,
      p.2 = rowSum m.itemUser p.1 ∧ p.1 < m.itemUser.rows := by
    intro p hp
    have hpS := List.take_subset n _ hp
    have hpL0 := hperm.mem_iff.mp hpS
    obtain ⟨i, hi, rfl⟩ := List.mem_map.mp hpL0
    exact ⟨rfl, List.mem_range.mp hi⟩
  refine ⟨?_, ?_, ?_⟩
  · intro i hi
    obtain ⟨p, hp, rfl⟩ := List.mem_map.mp hi
    exact (hmemT p hp).2
  · rw [popularityTop, List.length_map, List.length_take, hperm.length_eq,
      List.length_map, List.length_range]
  · have hsorted := List.sorted_insertionSort rLex
      ((List.range m.itemUser.rows).map (fun i => (i, rowSum m.itemUser i)))
    have hT := hsorted.sublist (List.take_sublist n _)
    have hP1 : List.Pairwise (fun i j => rowSum m.itemUser j < rowSum m.itemUser i
        ∨ (rowSum m.itemUser i = rowSum m.itemUser j ∧ i ≤ j)) (popularityTop m n) := by
      rw [popularityTop, List.pairwise_map]
      refine hT.imp_of_mem ?_
      intro p q hp hq hpq
      obtain ⟨hp2, _⟩ := hmemT p hp
      obtain ⟨hq2, _⟩ := hmemT q hq
      rcases hpq with h | ⟨h, hle⟩
      · exact Or.inl (by rw [← hp2, ← hq2]; exact h)
      · exact Or.inr ⟨by rw [← hp2, ← hq2]; exact h, hle⟩
    have hnodup : (popularityTop m n).Nodup := by
      have h0 : (((List.range m.itemUser.rows).map
          (fun i => (i, rowSum m.itemUser i))).map (fun p => p.1)).Nodup := by
        have he : (((List.range m.itemUser.rows).map
            (fun i => (i, rowSum m.itemUser i))).map (fun p => p.1))
            = (List.range m.itemUser.rows).map (fun i => i) := by
          rw [List.map_map]; rfl
        rw [he, List.map_id']
        exact List.nodup_range m.itemUser.rows
      have hSn := ((hperm.map (fun p => p.1)).nodup_iff).mpr h0
      rw [popularityTop, List.map_take]
      exact hSn.sublist (List.take_sublist n _)
    exact hP1.imp₂ (fun i j h hne =>
      h.elim Or.inl (fun h2 => Or.inr ⟨h2.1, lt_of_le_of_ne h2.2 hne⟩)) hnodup

/- ### Claim C1: cold-start fallback -/

/-- C1: for every user identifier absent from the fitted user encoder and
every n, recommend returns (with no error) the global-popularity ranking:
item indices ordered by descending row sum of the training item-user
matrix with ties broken by ascending index, truncated to at most n and
decoded; the list is the same for any two unseen user identifiers. -/
theorem cold_start_popularity (df : List Row) (score : Nat → Nat → Rat) (u u2 : PyVal)
    (n : Nat) (hu : u ∉ (Model.fit df score).userClasses)
    (hu2 : u2 ∉ (Model.fit df score).userClasses) :
    ∃ l : List PyVal,
      (Model.fit df score).recommend u n = Except.ok l
      ∧ (Model.fit df score).recommend u2 n = Except.ok l
      ∧ l.length ≤ n
      ∧ l.length = min n (Model.fit df score).itemUser.rows
      ∧ decodeList (Model.fit df score).itemClasses
          (popularityTop (Model.fit df score) n) = Except.ok l
      ∧ List.Pairwise (fun i j =>
          rowSum (Model.fit df score).itemUser j < rowSum (Model.fit df score).itemUser i
          ∨ (rowSum (Model.fit df score).itemUser i
              = rowSum (Model.fit df score).itemUser j ∧ i < j))
          (popularityTop (Model.fit df score) n) := by
  obtain ⟨hbound, hlen, hpair⟩ := popularityTop_spec (Model.fit df score) n
  obtain ⟨vs, hvs, hvslen⟩ := decodeList_ok (Model.fit df score).itemClasses
    (popularityTop (Model.fit df score) n)
    (fun i hi => fit_rows df score ▸ hbound i hi)
  have hrec : ∀ w, w ∉ (Model.fit df score).userClasses →
      (Model.fit df score).recommend w n = Except.ok vs := by
    intro w hw
    simp only [Model.recommend]
    rw [leTransform_not_mem _ _ hw]
    exact hvs
  refine ⟨vs, hrec u hu, hrec u2 hu2, ?_, ?_, hvs, hpair⟩
  · rw [hvslen, hlen]; exact min_le_left _ _
  · rw [hvslen, hlen]

theorem cold_start_popularity_witness :
    (PyVal.str "x" ∉ (Model.fit c1df (fun _ _ => 0)).userClasses)
    ∧ (PyVal.str "y" ∉ (Model.fit c1df (fun _ _ => 0)).userClasses)
    ∧ ∃ l : List PyVal,
        (Model.fit c1df (fun _ _ => 0)).recommend (PyVal.str "x") 2 = Except.ok l
        ∧ (Model.fit c1df (fun _ _ => 0)).recommend (PyVal.str "y") 2 = Except.ok l
        ∧ l.length ≤ 2
        ∧ l.length = min 2 (Model.fit c1df (fun _ _ => 0)).itemUser.rows
        ∧ decodeList (Model.fit c1df (fun _ _ => 0)).itemClasses
            (popularityTop (Model.fit c1df (fun _ _ => 0)) 2) = Except.ok l
        ∧ List.Pairwise (fun i j =>
            rowSum (Model.fit c1df (fun _ _ => 0)).itemUser j
              < rowSum (Model.fit c1df (fun _ _ => 0)).itemUser i
            ∨ (rowSum (Model.fit c1df (fun _ _ => 0)).itemUser i
                = rowSum (Model.fit c1df (fun _ _ => 0)).itemUser j ∧ i < j))
            (popularityTop (Model.fit c1df (fun _ _ => 0)) 2) :=
  ⟨by decide, by decide,
    cold_start_popularity c1df (fun _ _ => 0) (PyVal.str "x") (PyVal.str "y") 2
      (by decide) (by decide)⟩

/- ### Claim C7: the fallback fires exactly on the unknown identifier -/

/-- C7: for a user identifier present in the fitted encoder the result of
recommend is exactly the known-user path: a successful ALS call is decoded
and returned, and any error the scoring path raises propagates to the
caller; the popularity fallback is never taken for a known user. -/
theorem known_user_no_fallback (df : List Row) (score : Nat → Nat → Rat) (u : PyVal)
    (n : Nat) (hu : u ∈ (Model.fit df score).userClasses) :
    (∀ recs, alsRecommend (Model.fit df score)
        (leCode (Model.fit df score).userClasses u)
        (Model.fit df score).itemUser n true = Except.ok recs →
      (Model.fit df score).recommend u n
        = decodeList (Model.fit df score).itemClasses recs)
    ∧ (∀ e, alsRecommend (Model.fit df score)
        (leCode (Model.fit df score).userClasses u)
        (Model.fit df score).itemUser n true = Except.error e →
      (Model.fit df score).recommend u n = Except.error e) := by
  constructor
  · intro recs hals
    simp only [Model.recommend]
    rw [leTransform_mem _ _ hu]
    show (match alsRecommend (Model.fit df score)
        (leCode (Model.fit df score).userClasses u)
        (Model.fit df score).itemUser n true with
      | Except.ok recs => decodeList (Model.fit df score).itemClasses recs
      | Except.error PyErr.valueError =>
          decodeList (Model.fit df score).itemClasses (popularityTop (Model.fit df score) n)
      | Except.error PyErr.indexError => Except.error PyErr.indexError) = _
    rw [hals]
  · intro e hals
    cases e with
    | valueError =>
        exact absurd hals (alsRecommend_ne_valueError _ _ _ _ _)
    | indexError =>
        simp only [Model.recommend]
        rw [leTransform_mem _ _ hu]
        show (match alsRecommend (Model.fit df score)
            (leCode (Model.fit df score).userClasses u)
            (Model.fit df score).itemUser n true with
          | Except.ok recs => decodeList (Model.fit df score).itemClasses recs
          | Except.error PyErr.valueError =>
              decodeList (Model.fit df score).itemClasses
                (popularityTop (Model.fit df score) n)
          | Except.error PyErr.indexError => Except.error PyErr.indexError) = _
        rw [hals]

theorem known_user_no_fallback_witness :
    (PyVal.str "u" ∈ (Model.fit c7df (fun _ _ => 0)).userClasses)
    ∧ ((∀ recs, alsRecommend (Model.fit c7df (fun _ _ => 0))
          (leCode (Model.fit c7df (fun _ _ => 0)).userClasses (PyVal.str "u"))
          (Model.fit c7df (fun _ _ => 0)).itemUser 2 true = Except.ok recs →
        (Model.fit c7df (fun _ _ => 0)).recommend (PyVal.str "u") 2
          = decodeList (Model.fit c7df (fun _ _ => 0)).itemClasses recs)
      ∧ (∀ e, alsRecommend (Model.fit c7df (fun _ _ => 0))
          (leCode (Model.fit c7df (fun _ _ => 0)).userClasses (PyVal.str "u"))
          (Model.fit c7df (fun _ _ => 0)).itemUser 2 true = Except.error e →
        (Model.fit c7df (fun _ _ => 0)).recommend (PyVal.str "u") 2 = Except.error e)) :=
  ⟨by decide,
    known_user_no_fallback c7df (fun _ _ => 0) (PyVal.str "u") 2 (by decide)⟩

/- ### Claim C3: the already-liked exclusion set -/

/-- C3 evidence: recommend passes the item-by-user training matrix where
the implicit library expects a user-by-item matrix, so for the fitted
c3df model and user u the excluded index set is the set of users who
rated item a, which covers every item index, and recommend returns the
empty list for every n and every factor configuration — even though item
b (index 1) exists and user u (index 0) never interacted with it, so the
specified behaviour would return item b for any n of at least 1. -/
theorem liked_filter_wrong_orientation (score : Nat → Nat → Rat) (n : Nat) :
    (Model.fit c3df score).recommend (PyVal.str "u") n = Except.ok []
    ∧ (Model.fit c3df score).itemUser.entry 1 0 = 0
    ∧ 1 < (Model.fit c3df score).itemUser.rows := by
  refine ⟨?_, rfl, by show (1 : Nat) < 2; decide⟩
  have h1 : (Model.fit c3df score).recommend (PyVal.str "u") n
      = decodeList (Model.fit c3df score).itemClasses
          ((((List.insertionSort rLex [(0, score 0 0), (1, score 1 0)]).filter
              (fun p => decide (p.1 ∉ ([0, 1] : List Nat)))).take n).map (fun p => p.1)) :=
    rfl
  have hfil : (List.insertionSort rLex [(0, score 0 0), (1, score 1 0)]).filter
      (fun p => decide (p.1 ∉ ([0, 1] : List Nat))) = [] := by
    rw [List.filter_eq_nil_iff]
    intro p hp
    have hmem := (List.perm_insertionSort rLex _).mem_iff.mp hp
    rcases List.mem_cons.mp hmem with rfl | h2
    · simp
    · rcases List.mem_cons.mp h2 with rfl | h3
      · simp
      · exact absurd h3 (List.not_mem_nil p)
  rw [h1, hfil, List.take_nil, List.map_nil]
  rfl

/- ### Transform-column lemmas -/

theorem transformList_ok (classes : List PyVal) (vs : List PyVal)
    (h : ∀ v ∈ vs, v ∈ classes) :
    transformList classes vs = Except.ok (vs.map (leCode classes)) := by
  induction vs with
  | nil => rfl
  | cons v vs ih =>
      simp only [transformList, leTransform_mem _ _ (h v (List.mem_cons_self v vs)),
        ih (fun w hw => h w (List.mem_cons_of_mem v hw)), List.map_cons]

theorem transformList_err (classes : List PyVal) (vs : List PyVal)
    (h : ∃ v ∈ vs, v ∉ classes) :
    transformList classes vs = Except.error PyErr.valueError := by
  induction vs with
  | nil => obtain ⟨v, hv, _⟩ := h; cases hv
  | cons v vs ih =>
      by_cases hv : v ∈ classes
      · obtain ⟨w, hw, hwc⟩ := h
        have hvs : ∃ w ∈ vs, w ∉ classes := by
          rcases List.mem_cons.mp hw with rfl | h2
          · exact absurd hv hwc
          · exact ⟨w, h2, hwc⟩
        simp only [transformList, leTransform_mem _ _ hv, ih hvs]
      · simp only [transformList, leTransform_not_mem _ _ hv]

theorem map_zip_triple (f g : Row → Nat) (h : Row → Int) (l : List Row) :
    (l.map f).zip ((l.map g).zip (l.map h)) = l.map (fun r => (f r, g r, h r)) := by
  induction l with
  | nil => rfl
  | cons r l ih => simp [ih]

/- ### Claim C2: orientation of the held-out matrix -/

/-- C2 counterexample: fitting on two users and one item and evaluating
the same two rows, the matrix evaluate_model builds has shape 2 by 1 with
entry (0,1) equal to 0, while the item-by-user orientation the claim
asserts gives shape 1 by 2 with entry (0,1) equal to 1 — the held-out
matrix is transposed relative to training. -/
theorem heldout_orientation_counterexample :
    ¬ ((testMatrix (Model.fit c2train (fun _ _ => 0)) c2test).toOption.map
        (fun M => (M.rows, M.cols, M.entry 0 1))
      = some ((specHeldoutMatrix (Model.fit c2train (fun _ _ => 0)) c2test).rows,
          (specHeldoutMatrix (Model.fit c2train (fun _ _ => 0)) c2test).cols,
          (specHeldoutMatrix (Model.fit c2train (fun _ _ => 0)) c2test).entry 0 1)) := by
  decide

/-- C2 (amended): for every held-out table whose identifiers all lie in
the fitted vocabularies, evaluate_model builds the held-out sparse matrix
with the same fitted encoders but in the TRANSPOSED orientation relative
to training — rows indexed by encoded user and columns by encoded item,
entry (u,i) accumulating the ratings of the rows encoding to (u,i). -/
theorem heldout_matrix_user_by_item (m : Model) (testDf : List Row)
    (husers : ∀ r ∈ testDf, r.user_id ∈ m.userClasses)
    (hitems : ∀ r ∈ testDf, r.parent_asin ∈ m.itemClasses) :
    ∃ M : SpMat, testMatrix m testDf = Except.ok M
      ∧ M.rows = cooRows (testDf.map (fun r => leCode m.userClasses r.user_id))
      ∧ M.cols = cooRows (testDf.map (fun r => leCode m.itemClasses r.parent_asin))
      ∧ ∀ uIdx iIdx, M.entry uIdx iIdx
          = ((testDf.filter (fun r => decide (leCode m.userClasses r.user_id = uIdx
              ∧ leCode m.itemClasses r.parent_asin = iIdx))).map
              (fun r => r.rating)).sum := by
  have hu := transformList_ok m.userClasses (testDf.map (fun r => r.user_id))
    (fun v hv => by obtain ⟨r, hr, rfl⟩ := List.mem_map.mp hv; exact husers r hr)
  have hi := transformList_ok m.itemClasses (testDf.map (fun r => r.parent_asin))
    (fun v hv => by obtain ⟨r, hr, rfl⟩ := List.mem_map.mp hv; exact hitems r hr)
  rw [List.map_map] at hu hi
  simp only [testMatrix, hu, hi]
  refine ⟨_, rfl, rfl, rfl, ?_⟩
  intro uIdx iIdx
  show buildMatrix ((testDf.map _).zip ((testDf.map _).zip (testDf.map _))) uIdx iIdx = _
  rw [map_zip_triple, buildMatrix_eq_sum, List.filter_map, List.map_map]
  rfl

theorem heldout_matrix_user_by_item_witness :
    (∀ r ∈ c2test, r.user_id ∈ (Model.fit c2train (fun _ _ => 0)).userClasses)
    ∧ (∀ r ∈ c2test, r.parent_asin ∈ (Model.fit c2train (fun _ _ => 0)).itemClasses)
    ∧ ∃ M : SpMat, testMatrix (Model.fit c2train (fun _ _ => 0)) c2test = Except.ok M
        ∧ M.rows = cooRows (c2test.map (fun r =>
            leCode (Model.fit c2train (fun _ _ => 0)).userClasses r.user_id))
        ∧ M.cols = cooRows (c2test.map (fun r =>
            leCode (Model.fit c2train (fun _ _ => 0)).itemClasses r.parent_asin))
        ∧ ∀ uIdx iIdx, M.entry uIdx iIdx
            = ((c2test.filter (fun r => decide
                (leCode (Model.fit c2train (fun _ _ => 0)).userClasses r.user_id = uIdx
                ∧ leCode (Model.fit c2train (fun _ _ => 0)).itemClasses r.parent_asin
                    = iIdx))).map (fun r => r.rating)).sum :=
  ⟨by decide, by decide,
    heldout_matrix_user_by_item (Model.fit c2train (fun _ _ => 0)) c2test
      (by decide) (by decide)⟩

/- ### Claim C9: the vocabulary membership check on recommended indices -/

/-- C9: evaluate_model passes a recommended item index through the item
encoder only when the integer itself belongs to the raw item vocabulary
and replaces it by -1 otherwise; in particular, when every fitted item
identifier is a string, every converted entry of every recommendation
list equals -1. -/
theorem recs_to_ids_vocabulary_check (m : Model) (userRecs : List Nat) :
    (∀ item : Nat,
        (recToId m item = -1 ↔ PyVal.int (Int.ofNat item) ∉ m.itemClasses)
        ∧ (PyVal.int (Int.ofNat item) ∈ m.itemClasses →
            recToId m item = Int.ofNat (leCode m.itemClasses (PyVal.int (Int.ofNat item)))))
    ∧ (m.itemClasses.all PyVal.isStr = true →
        recsToIds m userRecs = userRecs.map (fun _ => (-1 : Int))) := by
  constructor
  · intro item
    constructor
    · constructor
      · intro h hmem
        rw [recToId, if_pos hmem] at h
        simp only [Int.ofNat_eq_coe] at h
        omega
      · intro hmem; rw [recToId, if_neg hmem]
    · intro hmem; rw [recToId, if_pos hmem]
  · intro hstr
    have hnot : ∀ item : Nat, PyVal.int (Int.ofNat item) ∉ m.itemClasses := by
      intro item hmem
      have hval := List.all_eq_true.mp hstr _ hmem
      simp [PyVal.isStr] at hval
    rw [recsToIds]
    exact List.map_congr_left (fun item _ => by rw [recToId, if_neg (hnot item)])

/- ### Claim C10: unknown held-out users abort the evaluation -/

/-- C10: evaluate_model raises (and produces no report) whenever the
held-out table contains a user identifier absent from the fitted user
encoder, and the upstream filter_seen_items collaborator keeps every row
whose item was seen in training without ever consulting the user column,
so it cannot prevent this. -/
theorem evaluate_unknown_user_raises (trainDf testDf : List Row)
    (score : Nat → Nat → Rat) (k : Nat) (r : Row)
    (hr : r ∈ filter_seen_items trainDf testDf)
    (hu : r.user_id ∉ (Model.fit trainDf score).userClasses) :
    evaluateModel (Model.fit trainDf score) (filter_seen_items trainDf testDf) k
      = Except.error PyErr.valueError
    ∧ ∀ t ∈ testDf, t.parent_asin ∈ trainDf.map (fun t2 => t2.parent_asin) →
        t ∈ filter_seen_items trainDf testDf := by
  constructor
  · have herr := transformList_err (Model.fit trainDf score).userClasses
      ((filter_seen_items trainDf testDf).map (fun r2 => r2.user_id))
      ⟨r.user_id, List.mem_map_of_mem _ hr, hu⟩
    rw [evaluateModel, testMatrix, herr]
  · intro t ht hseen
    rw [filter_seen_items, List.mem_filter]
    exact ⟨ht, decide_eq_true hseen⟩

theorem evaluate_unknown_user_raises_witness :
    (⟨PyVal.str "w", PyVal.str "a", 2⟩ : Row) ∈ filter_seen_items c10train c10test
    ∧ (PyVal.str "w" ∉ (Model.fit c10train (fun _ _ => 0)).userClasses)
    ∧ (evaluateModel (Model.fit c10train (fun _ _ => 0))
        (filter_seen_items c10train c10test) 10 = Except.error PyErr.valueError
      ∧ ∀ t ∈ c10test, t.parent_asin ∈ c10train.map (fun t2 => t2.parent_asin) →
          t ∈ filter_seen_items c10train c10test) :=
  ⟨by decide, by decide,
    evaluate_unknown_user_raises c10train c10test (fun _ _ => 0) 10
      ⟨PyVal.str "w", PyVal.str "a", 2⟩ (by decide) (by decide)⟩

/- ### Claim C8: no random seed in the configuration -/

/-- C8 evidence: the constructor configuration contains no random seed —
neither the RecommendationSystem options nor the arguments forwarded to
AlternatingLeastSquares include a seed or random_state entry, so the
solver initialisation draws from ambient global random state and seeded
determinism is not available. -/
theorem no_seed_option :
    "seed" ∉ initParams ∧ "random_state" ∉ initParams
    ∧ "seed" ∉ alsCallArgs ∧ "random_state" ∉ alsCallArgs := by decide
